import Mathlib

set_option maxRecDepth 4000

unseal Rat.mul Rat.inv Rat.add Rat.sub

/-!
Verification of the query/resolution/aggregation core of the DunkMaster NBA
stats tool servers (`server.py`, `http_stats_server.py`).

Tables are shallowly embedded as lists of rows in load order; a row is an
association list from column names to cells.  Numeric data is modelled exactly
over `ℚ`; the IEEE special values produced by zero-denominator division are
modelled explicitly by `PyFloat`.
-/

namespace DunkMaster

/-- A table cell: missing (NaN), a string, or an exact numeric value. -/
inductive Cell where
  | na : Cell
  | str : String → Cell
  | num : ℚ → Cell
deriving DecidableEq

/-- A row is an association list from column names to cells (a pandas row). -/
abbrev Row := List (String × Cell)

/-- Column lookup in a row; an absent key behaves as a missing value. -/
def getCell (r : Row) (c : String) : Cell := (r.lookup c).getD .na

/-- Whether a cell is missing (`pd.isna`). -/
def Cell.isNA : Cell → Bool
  | .na => true
  | _ => false

/-- Numeric view of a cell. -/
def Cell.toQ : Cell → Option ℚ
  | .num q => some q
  | _ => none

/-- String view of a cell. -/
def Cell.toStr : Cell → Option String
  | .str s => some s
  | _ => none

/-- An in-memory loaded table: schema (column list) plus rows in load order. -/
structure Table where
  cols : List String
  rows : List Row

/-- A Python float result: an exact rational or one of the IEEE special values
that NumPy division can produce. -/
inductive PyFloat where
  | nan : PyFloat
  | inf : PyFloat
  | ninf : PyFloat
  | val : ℚ → PyFloat
deriving DecidableEq

/-- NumPy float division, exact on nonzero denominators; division by zero
follows IEEE 754 (0/0 = NaN, x/0 = ±inf) and raises no exception. -/
def pyDiv (a b : ℚ) : PyFloat :=
  if b = 0 then (if a = 0 then .nan else if a > 0 then .inf else .ninf)
  else .val (a / b)

/-- Python truthiness of a float: 0.0 is falsy; NaN and ±inf are truthy. -/
def PyFloat.truthy : PyFloat → Bool
  | .val q => q != 0
  | _ => true

/-- Python `a or b` over optional floats (`None` and 0.0 are falsy). -/
def pyOr (a b : Option PyFloat) : Option PyFloat :=
  match a with
  | none => b
  | some x => if x.truthy then some x else b

/-- Floor of a rational (Euclidean division of numerator by denominator). -/
def ratFloor (q : ℚ) : ℤ := Int.ediv q.num (q.den : ℤ)

/-- Round to the nearest integer, ties to even (Python `round`). -/
def roundHalfEven (q : ℚ) : ℤ :=
  if q - (ratFloor q : ℚ) < 1/2 then ratFloor q
  else if q - (ratFloor q : ℚ) > 1/2 then ratFloor q + 1
  else if 2 ∣ ratFloor q then ratFloor q else ratFloor q + 1

/-- Python `round(x, 2)` over exact rationals. -/
def pyRound2 (q : ℚ) : ℚ := (roundHalfEven (q * 100) : ℚ) / 100

/-- `round(x, 2)` on a Python float; NaN and ±inf round to themselves. -/
def PyFloat.round2 : PyFloat → PyFloat
  | .val q => .val (pyRound2 q)
  | x => x

/-! ## Weighted career averages (`player_summary.wavg`, `compare_players.career.wavg`) -/

/-- Numeric value of a cell, with 0 standing in for the non-numeric cases that
the dropna filters below already exclude. -/
def cellQ (r : Row) (c : String) : ℚ := ((getCell r c).toQ).getD 0

/-- `df[[num, den]].dropna()` inside `player_summary.wavg`: the rows where both
columns are non-missing. -/
def wavgSub (t : Table) (num den : String) : List Row :=
  t.rows.filter (fun r => !(getCell r num).isNA && !(getCell r den).isNA)

/-- `(sub[num] * sub[den]).sum()` inside `player_summary.wavg`. -/
def wavgNumSum (t : Table) (num den : String) : ℚ :=
  ((wavgSub t num den).map (fun r => cellQ r num * cellQ r den)).sum

/-- `sub[den].sum()` inside `player_summary.wavg`. -/
def wavgDenSum (t : Table) (num den : String) : ℚ :=
  ((wavgSub t num den).map (fun r => cellQ r den)).sum

/-- `player_summary.wavg` (server.py lines 123-130): game-weighted average
`sum(num*den)/sum(den)`; `None` when a column is absent or the dropna-filtered
frame is empty.  The division is NumPy division: a zero weight sum yields an
IEEE special value, not `None`. -/
def wavg (t : Table) (num den : String) : Option PyFloat :=
  if num ∈ t.cols ∧ den ∈ t.cols then
    if wavgSub t num den = [] then none
    else some (pyDiv (wavgNumSum t num den) (wavgDenSum t num den))
  else none

/-- `sub["g"].dropna().sum()` in `compare_players.career` (0.0 when empty). -/
def cpGsum (sub : List Row) : ℚ := (sub.filterMap (fun r => (getCell r "g").toQ)).sum

/-- `compare_players.career.wavg` (server.py lines 218-221): `None` when the
column is absent or the games sum is zero, else `(sub[col]*sub["g"]).sum()`
(pairs with a missing factor are skipped by the NaN-skipping sum) divided by
the games sum. -/
def cpWavg (cols : List String) (sub : List Row) (col : String) : Option ℚ :=
  if col ∉ cols ∨ cpGsum sub = 0 then none
  else some (((sub.filterMap (fun r =>
    match (getCell r col).toQ, (getCell r "g").toQ with
    | some v, some g => some (v * g)
    | _, _ => none)).sum) / cpGsum sub)

/-! ## Percentage canonicalization (`_pct`, http_stats_server.py lines 104-111) -/

/-- `float(x)` inside `_pct`, with the conversion failure caught and turned
into NaN; percentage columns hold numbers or NaN, and a non-numeric cell takes
the exception branch. -/
def cellFloat : Cell → PyFloat
  | .num q => .val q
  | .na => .nan
  | .str _ => .nan

/-- The branch logic of `_pct` on an already-converted float: NaN is returned
as is; a value ≤ 1 is scaled by 100; a larger value is returned unchanged
(`-inf ≤ 1` scales, but `-inf * 100 = -inf`). -/
def pct : PyFloat → PyFloat
  | .val q => if q ≤ 1 then .val (q * 100) else .val q
  | .nan => .nan
  | .inf => .inf
  | .ninf => .ninf

/-- `_pct` applied to a raw cell. -/
def pctCell (x : Cell) : PyFloat := pct (cellFloat x)

/-! ## Fuzzy name resolution (`_best_match`, server.py lines 74-79) -/

/-- Modelled from the spec: rapidfuzz `process.extractOne` (the library call in
`_best_match` whose source is outside this repository) scores the query against
every candidate with the given scorer and returns a highest-scoring candidate
(the earliest on ties) together with its score; `None` on an empty list. -/
def extractOne (score : String → ℚ) : List String → Option (String × ℚ)
  | [] => none
  | c :: cs =>
    match extractOne score cs with
    | none => some (c, score c)
    | some (m, s) => if s ≤ score c then some (c, score c) else some (m, s)

/-- `_best_match`: empty choices give the query name back with score 0;
otherwise the `extractOne` result (`float(score or 0.0)` leaves the numeric
score unchanged). -/
def best_match (score : String → String → ℚ) (name : String)
    (choices : List String) : String × ℚ :=
  if choices = [] then (name, 0)
  else (extractOne (score name) choices).getD (name, 0)

theorem extractOne_ne_none (score : String → ℚ) (l : List String) (h : l ≠ []) :
    ∃ m s, extractOne score l = some (m, s) := by
  cases l with
  | nil => exact absurd rfl h
  | cons c cs =>
    rw [extractOne]
    cases extractOne score cs with
    | none => exact ⟨c, score c, rfl⟩
    | some p =>
      obtain ⟨m', s'⟩ := p
      dsimp only
      by_cases hle : s' ≤ score c
      · exact ⟨c, score c, by rw [if_pos hle]⟩
      · exact ⟨m', s', by rw [if_neg hle]⟩

theorem extractOne_spec (score : String → ℚ) :
    ∀ (l : List String) (m : String) (s : ℚ), extractOne score l = some (m, s) →
      m ∈ l ∧ s = score m ∧ ∀ c ∈ l, score c ≤ s := by
  intro l
  induction l with
  | nil => intro m s h; simp [extractOne] at h
  | cons c cs ih =>
    intro m s h
    rw [extractOne] at h
    cases hrec : extractOne score cs with
    | none =>
      rw [hrec] at h
      dsimp only at h
      obtain ⟨hmc, hsc⟩ := Prod.mk.injEq .. ▸ Option.some.inj h
      subst hmc hsc
      refine ⟨by simp, rfl, ?_⟩
      intro x hx
      rcases List.mem_cons.mp hx with hx | hx
      · simp [hx]
      · exact absurd hrec (by
          obtain ⟨m', s', h'⟩ := extractOne_ne_none score cs (List.ne_nil_of_mem hx)
          simp [h'])
    | some p =>
      obtain ⟨m', s'⟩ := p
      rw [hrec] at h
      dsimp only at h
      obtain ⟨hm', hs', hmax⟩ := ih m' s' hrec
      by_cases hle : s' ≤ score c
      · rw [if_pos hle] at h
        obtain ⟨hmc, hsc⟩ := Prod.mk.injEq .. ▸ Option.some.inj h
        subst hmc hsc
        refine ⟨by simp, rfl, ?_⟩
        intro x hx
        rcases List.mem_cons.mp hx with hx | hx
        · simp [hx]
        · exact le_trans (hmax x hx) hle
      · rw [if_neg hle] at h
        obtain ⟨hmc, hsc⟩ := Prod.mk.injEq .. ▸ Option.some.inj h
        subst hmc hsc
        refine ⟨List.mem_cons_of_mem _ hm', hs', ?_⟩
        intro x hx
        rcases List.mem_cons.mp hx with hx | hx
        · subst hx; exact le_of_not_le hle
        · exact hmax x hx

theorem best_match_spec (score : String → String → ℚ) (name : String)
    (choices : List String) (h : choices ≠ []) :
    (best_match score name choices).1 ∈ choices ∧
    (best_match score name choices).2 = score name (best_match score name choices).1 ∧
    ∀ c ∈ choices, score name c ≤ (best_match score name choices).2 := by
  obtain ⟨m, s, hex⟩ := extractOne_ne_none (score name) choices h
  obtain ⟨hmem, hs, hmax⟩ := extractOne_spec (score name) choices m s hex
  rw [best_match, if_neg h, hex]
  exact ⟨hmem, hs, hmax⟩

/-! ## Sorting helpers (Python `sorted`, pandas `sort_values`) -/

/-- Ascending sort of rationals (a stable insertion sort). -/
def sortQ (l : List ℚ) : List ℚ := l.insertionSort (· ≤ ·)

/-- Ascending sort of strings (a stable insertion sort). -/
def sortStr (l : List String) : List String := l.insertionSort (· ≤ ·)

/-- Python `sorted(set(xs))`. -/
def pySortedSet (l : List String) : List String := sortStr l.dedup

theorem mem_pySortedSet {l : List String} {x : String} :
    x ∈ pySortedSet l ↔ x ∈ l := by
  rw [pySortedSet, sortStr, List.mem_insertionSort, List.mem_dedup]

/-! ## `player_summary` (server.py lines 99-160)

The `top_award_shares` block projects untouched columns of the awards table;
no claim concerns it and it is not modelled. -/

/-- Result of `player_summary`: either the not-found payload
(`match: None, score: 0.0, error: ...`) or the summary record with matched
name, score, season span, team list, rounded career averages and the all-star
selection count. -/
inductive PSResult where
  | notFound : String → PSResult
  | found : String → ℚ → Option ℚ × Option ℚ → List String →
      Option PyFloat → Option PyFloat → Option PyFloat → ℕ → PSResult
deriving DecidableEq

/-- `sorted(set(T.per_game["player"].dropna().astype(str)))`; the loader has
already coerced the player column to stripped strings, so `astype(str)` is the
identity and `dropna` keeps exactly the string cells. -/
def psChoices (pg : Table) : List String :=
  pySortedSet (pg.rows.filterMap (fun r => (getCell r "player").toStr))

/-- The `_best_match` call in `player_summary`. -/
def psBest (pg : Table) (score : String → String → ℚ) (player : String) :
    String × ℚ :=
  best_match score player (psChoices pg)

/-- `df[df["player"] == who]`. -/
def filteredBy (rows : List Row) (who : String) : List Row :=
  rows.filter (fun r => getCell r "player" == Cell.str who)

/-- `sorted(pdf["season"].dropna().unique().tolist()) if "season" in pdf else []`. -/
def psSeasons (pg : Table) (pdf : List Row) : List ℚ :=
  if "season" ∈ pg.cols then
    sortQ ((pdf.filterMap (fun r => (getCell r "season").toQ)).dedup)
  else []

/-- `sorted(set(pdf["team"].dropna().astype(str))) if "team" in pdf.columns else []`. -/
def psTeams (pg : Table) (pdf : List Row) : List String :=
  if "team" ∈ pg.cols then
    pySortedSet (pdf.filterMap (fun r => (getCell r "team").toStr))
  else []

/-- One career average in `player_summary`:
`wavg(pdf, pcol) or wavg(tdf, tcol)` followed by `round(., 2)` at presentation
(`None` is kept as `None`).  Python `or` falls back on any falsy left operand,
i.e. on `None` and on 0.0. -/
def psCareerAvg (pdfT tdfT : Table) (pcol tcol : String) : Option PyFloat :=
  (pyOr (wavg pdfT pcol "g") (wavg tdfT tcol "g")).map PyFloat.round2

/-- `player_summary(player)` over loaded per-game, totals, career-info and
all-star tables, parametrised by the fuzzy scorer. -/
def player_summary (pg totals career allstar : Table)
    (score : String → String → ℚ) (player : String) : PSResult :=
  let best := (psBest pg score player).1
  let pdf := filteredBy pg.rows best
  let tdf := filteredBy totals.rows best
  let cdf := filteredBy career.rows best
  if pdf = [] ∧ tdf = [] ∧ cdf = [] then .notFound player
  else
    .found best (psBest pg score player).2
      ((psSeasons pg pdf).head?, (psSeasons pg pdf).getLast?)
      (psTeams pg pdf)
      (psCareerAvg ⟨pg.cols, pdf⟩ ⟨totals.cols, tdf⟩ "pts_per_game" "pts")
      (psCareerAvg ⟨pg.cols, pdf⟩ ⟨totals.cols, tdf⟩ "ast_per_game" "ast")
      (psCareerAvg ⟨pg.cols, pdf⟩ ⟨totals.cols, tdf⟩ "trb_per_game" "trb")
      (filteredBy allstar.rows best).length

/-! ## `top_scorers` (server.py lines 163-177) -/

/-- The sort key of `sort_values("pts_per_game", ...)`; after the dropna below
the cell is always a number. -/
def tsKey (r : Row) : ℚ := cellQ r "pts_per_game"

/-- The projection `[["player", "team", "pts_per_game", "g"]]` producing one
output record. -/
def tsProj (r : Row) : Cell × Cell × Cell × Cell :=
  (getCell r "player", getCell r "team", getCell r "pts_per_game", getCell r "g")

/-- `T.per_game[T.per_game["season"] == season]`. -/
def tsDf (t : Table) (season : ℚ) : List Row :=
  t.rows.filter (fun r => getCell r "season" == Cell.num season)

/-- The season rows surviving `dropna()` over the four projected columns. -/
def tsOut (t : Table) (season : ℚ) : List Row :=
  (tsDf t season).filter (fun r =>
    !(getCell r "player").isNA && !(getCell r "team").isNA &&
    !(getCell r "pts_per_game").isNA && !(getCell r "g").isNA)

/-- Ascending comparison on the ranking metric. -/
def rle (a b : Row) : Prop := tsKey a ≤ tsKey b

instance rleDecidable : DecidableRel rle := fun a b =>
  inferInstanceAs (Decidable (tsKey a ≤ tsKey b))

instance rleTotal : IsTotal Row rle := ⟨fun a b => le_total (tsKey a) (tsKey b)⟩

instance rleTrans : IsTrans Row rle := ⟨fun _ _ _ h1 h2 => le_trans h1 h2⟩

/-- pandas `sort_values(col, ascending=False)` (`nargsort`): a stable ascending
argsort whose index order is then reversed, so that tied keys come out in
reverse load order.  (The default `quicksort` kind is unspecified on ties in
general; below NumPy's small-array cutoff it is the stable insertion sort
modelled here.) -/
def pandasSortDesc (l : List Row) : List Row := (l.insertionSort rle).reverse

/-- pandas `head(n)` for a Python int `n`: the first `n` rows when `n ≥ 0`,
everything but the last `|n|` rows when `n` is negative. -/
def pyHead (n : ℤ) (l : List α) : List α :=
  if 0 ≤ n then l.take n.toNat else l.take (l.length - (-n).toNat)

/-- `top_scorers(season, n)`: empty when the season filter is empty or the
metric column is absent; otherwise the dropna'd projection sorted descending by
points per game and truncated by `head(int(n))`. -/
def top_scorers (t : Table) (season : ℚ) (n : ℤ) :
    List (Cell × Cell × Cell × Cell) :=
  if tsDf t season = [] ∨ "pts_per_game" ∉ t.cols then []
  else (pyHead n (pandasSortDesc (tsOut t season))).map tsProj

/-! ## `_match_team_row` (http_stats_server.py lines 76-102) -/

/-- Python `str.lower()` (character-wise lowercasing; the team names and
queries involved are ASCII). -/
def pyLower (s : String) : String := ⟨s.data.map Char.toLower⟩

/-- Whitespace recognised by Python `str.strip()`. -/
def isSpaceChar (c : Char) : Bool := c = ' ' || c = '\t' || c = '\n' || c = '\r'

/-- Python `str.strip()`: drop leading and trailing whitespace. -/
def pyStrip (s : String) : String :=
  ⟨((s.data.dropWhile isSpaceChar).reverse.dropWhile isSpaceChar).reverse⟩

/-- Lowercased string view of a cell (`Series.str.lower()`: missing stays
missing). -/
def lowerCell (c : Cell) : Option String := c.toStr.map pyLower

/-- Literal substring containment. The source uses `Series.str.contains`,
which treats the query as a regular expression; for queries without regex
metacharacters the two coincide. -/
def containsSub (hay needle : String) : Bool :=
  (List.range (hay.length + 1)).any
    (fun i => needle.toList.isPrefixOf (hay.toList.drop i))

/-- `_by_name_or_abbr`: exact case-insensitive team-name match, else exact
abbreviation match, else substring fallback against the team name
(`na=False`: rows with a missing name never match). -/
def byNameOrAbbr (cols : List String) (frame : List Row) (t : String) :
    List Row :=
  let m1 := if "team" ∈ cols then
      frame.filter (fun r => lowerCell (getCell r "team") == some t)
    else []
  let m2 := if m1 = [] ∧ "abbreviation" ∈ cols then
      frame.filter (fun r => lowerCell (getCell r "abbreviation") == some t)
    else m1
  if m2 = [] ∧ "team" ∈ cols then
    frame.filter (fun r =>
      match lowerCell (getCell r "team") with
      | some s => containsSub s t
      | none => false)
  else m2

/-- `_match_team_row(df, season, team)`: season filter, name/abbreviation/
substring cascade, regular-season preference (`playoffs == 0`) when the
playoff column exists, then the first candidate row. -/
def match_team_row (tbl : Table) (season : ℚ) (team : String) : Option Row :=
  let sub := tbl.rows.filter (fun r => getCell r "season" == Cell.num season)
  if sub = [] then none
  else
    let m := byNameOrAbbr tbl.cols sub (pyLower (pyStrip team))
    if m = [] then none
    else
      let reg := m.filter (fun r => getCell r "playoffs" == Cell.num 0)
      let m2 := if "playoffs" ∈ tbl.cols then (if reg = [] then m else reg)
        else m
      m2.head?

/-! ## `team_summary` (server.py lines 239-264) -/

/-- The projected summary fields of `team_summary`. -/
def tsFields : List String :=
  ["w", "l", "srs", "o_rtg", "d_rtg", "n_rtg", "pace",
   "ts_percent", "e_fg_percent", "tov_percent", "orb_percent"]

/-- Result of `team_summary`: season with no rows, team not found, or the
matched summary (name, score, season, present fields). -/
inductive TSResult where
  | noSeason : ℚ → TSResult
  | notFound : String → TSResult
  | found : String → ℚ → ℚ → List (String × Cell) → TSResult
deriving DecidableEq

/-- `team_summary(season, team)` over the team-summaries table, parametrised
by the fuzzy scorer. -/
def team_summary (tbl : Table) (score : String → String → ℚ) (season : ℚ)
    (team : String) : TSResult :=
  let df := tbl.rows.filter (fun r => getCell r "season" == Cell.num season)
  if df = [] then .noSeason season
  else
    let bs := best_match score team
      (pySortedSet (df.filterMap (fun r => (getCell r "team").toStr)))
    match (df.filter (fun r => getCell r "team" == Cell.str bs.1)).head? with
    | none => .notFound team
    | some r => .found bs.1 bs.2 season
        (tsFields.filterMap (fun k => (r.lookup k).map (fun v => (k, v))))

/-! ## Claim C1 -/

/-- A one-row per-game frame whose only row has a (non-missing) games count of
zero. -/
def c1Table : Table :=
  ⟨["pts_per_game", "g"], [[("pts_per_game", .num 1), ("g", .num 0)]]⟩

/-- Claim C1 counterexample: on a one-row frame with `pts_per_game = 1` and
`g = 0`, the filtered row set of `player_summary.wavg` is non-empty, the
weight sum is zero, and the operation returns the float NaN — not `missing` —
so the claim that it returns `missing` whenever the weight sum is zero is
false. -/
theorem c1_counterexample :
    wavgSub c1Table "pts_per_game" "g" ≠ [] ∧
    wavgDenSum c1Table "pts_per_game" "g" = 0 ∧
    wavg c1Table "pts_per_game" "g" = some PyFloat.nan := by decide

/-- Claim C1 (amended): `player_summary.wavg` returns `missing` when a column
is absent or the filtered row set is empty, but on a non-empty filtered set
whose weights sum to zero it returns an IEEE non-finite float (NaN or ±inf)
rather than `missing`; `compare_players.career.wavg` returns `missing`
whenever the column is absent or the games sum is zero (which covers both the
empty and the zero-weight case). -/
theorem c1_amended :
    (∀ (t : Table) (num den : String),
      num ∉ t.cols ∨ den ∉ t.cols ∨ wavgSub t num den = [] →
        wavg t num den = none) ∧
    (∀ (t : Table) (num den : String), num ∈ t.cols → den ∈ t.cols →
      wavgSub t num den ≠ [] → wavgDenSum t num den = 0 →
        wavg t num den ≠ none ∧ ∀ q : ℚ, wavg t num den ≠ some (.val q)) ∧
    (∀ (cols : List String) (sub : List Row) (col : String),
      col ∉ cols ∨ cpGsum sub = 0 → cpWavg cols sub col = none) := by
  refine ⟨?_, ?_, ?_⟩
  · intro t num den h
    rw [wavg]
    rcases h with h | h | h
    · rw [if_neg (fun hc => h hc.1)]
    · rw [if_neg (fun hc => h hc.2)]
    · by_cases hc : num ∈ t.cols ∧ den ∈ t.cols
      · rw [if_pos hc, if_pos h]
      · rw [if_neg hc]
  · intro t num den hnum hden hne hzero
    rw [wavg, if_pos ⟨hnum, hden⟩, if_neg hne, pyDiv, if_pos hzero]
    constructor
    · split <;> simp
    · intro q
      split
      · simp
      · split <;> simp
  · intro cols sub col h
    rw [cpWavg, if_pos h]

/-- Witness for the amended C1 theorem at concrete inputs: a frame missing the
value column, the zero-weight one-row frame, and an empty comparison frame. -/
theorem c1_witness :
    wavg (Table.mk ["g"] []) "pts_per_game" "g" = none ∧
    (wavg c1Table "pts_per_game" "g" ≠ none ∧
      ∀ q : ℚ, wavg c1Table "pts_per_game" "g" ≠ some (.val q)) ∧
    cpWavg [] [] "pts_per_game" = none :=
  ⟨c1_amended.1 ⟨["g"], []⟩ "pts_per_game" "g" (Or.inl (by decide)),
   c1_amended.2.1 c1Table "pts_per_game" "g" (by decide) (by decide)
     (by decide) (by decide),
   c1_amended.2.2 [] [] "pts_per_game" (Or.inl (by decide))⟩

/-! ## Claim C5 -/

theorem byNameOrAbbr_nil (cols : List String) (t : String) :
    byNameOrAbbr cols [] t = [] := by
  rw [byNameOrAbbr]
  by_cases h1 : "team" ∈ cols <;> by_cases h2 : "abbreviation" ∈ cols <;>
    simp [h1, h2]

/-- The spec's regular-season Lakers row. -/
def lakersReg : Row :=
  [("season", .num 2000), ("team", .str "Lakers"),
   ("abbreviation", .str "LAL"), ("playoffs", .num 0)]

/-- The spec's playoff Lakers row. -/
def lakersPO : Row :=
  [("season", .num 2000), ("team", .str "Lakers"),
   ("abbreviation", .str "LAL"), ("playoffs", .num 1)]

/-- The spec's two-row example table. -/
def lakersTable : Table :=
  ⟨["season", "team", "abbreviation", "playoffs"], [lakersReg, lakersPO]⟩

/-- Claim C5: when the matcher's candidate set contains both a playoff row and
a regular-season row, `_match_team_row` returns a regular-season row; in
particular, on the spec's two-row example `matchRow(table, 2000, "LAL")`
returns the `playoffs = 0` row. -/
theorem c5_match_row :
    (∀ (tbl : Table) (season : ℚ) (team : String) (r1 r2 : Row),
      "playoffs" ∈ tbl.cols →
      r1 ∈ byNameOrAbbr tbl.cols
        (tbl.rows.filter (fun r => getCell r "season" == Cell.num season))
        (pyLower (pyStrip team)) →
      r2 ∈ byNameOrAbbr tbl.cols
        (tbl.rows.filter (fun r => getCell r "season" == Cell.num season))
        (pyLower (pyStrip team)) →
      getCell r1 "playoffs" = Cell.num 1 →
      getCell r2 "playoffs" = Cell.num 0 →
      ∃ r, match_team_row tbl season team = some r ∧
        getCell r "playoffs" = Cell.num 0) ∧
    match_team_row lakersTable 2000 "LAL" = some lakersReg := by
  constructor
  · intro tbl season team r1 r2 hpo hr1 hr2 hp1 hp2
    have hsub_ne : tbl.rows.filter
        (fun r => getCell r "season" == Cell.num season) ≠ [] := by
      intro h
      rw [h, byNameOrAbbr_nil] at hr2
      exact absurd hr2 (List.not_mem_nil r2)
    have hm_ne : byNameOrAbbr tbl.cols
        (tbl.rows.filter (fun r => getCell r "season" == Cell.num season))
        (pyLower (pyStrip team)) ≠ [] := List.ne_nil_of_mem hr2
    have hreg_mem : r2 ∈ (byNameOrAbbr tbl.cols
        (tbl.rows.filter (fun r => getCell r "season" == Cell.num season))
        (pyLower (pyStrip team))).filter
        (fun r => getCell r "playoffs" == Cell.num 0) :=
      List.mem_filter.mpr ⟨hr2, by simp [hp2]⟩
    have hreg_ne : (byNameOrAbbr tbl.cols
        (tbl.rows.filter (fun r => getCell r "season" == Cell.num season))
        (pyLower (pyStrip team))).filter
        (fun r => getCell r "playoffs" == Cell.num 0) ≠ [] :=
      List.ne_nil_of_mem hreg_mem
    rw [match_team_row]
    simp only []
    rw [if_neg hsub_ne, if_neg hm_ne, if_pos hpo, if_neg hreg_ne]
    cases hhd : ((byNameOrAbbr tbl.cols
        (tbl.rows.filter (fun r => getCell r "season" == Cell.num season))
        (pyLower (pyStrip team))).filter
        (fun r => getCell r "playoffs" == Cell.num 0)).head? with
    | none => exact absurd (List.head?_eq_none_iff.mp hhd) hreg_ne
    | some r0 =>
      refine ⟨r0, rfl, ?_⟩
      have hr0mem : r0 ∈ (byNameOrAbbr tbl.cols
          (tbl.rows.filter (fun r => getCell r "season" == Cell.num season))
          (pyLower (pyStrip team))).filter
          (fun r => getCell r "playoffs" == Cell.num 0) :=
        List.mem_of_mem_head? (by simp [hhd])
      have := (List.mem_filter.mp hr0mem).2
      exact of_decide_eq_true this
  · decide

/-- Witness for the universal part of C5, instantiated on the spec's example
table. -/
theorem c5_witness :
    ∃ r, match_team_row lakersTable 2000 "LAL" = some r ∧
      getCell r "playoffs" = Cell.num 0 :=
  c5_match_row.1 lakersTable 2000 "LAL" lakersPO lakersReg (by decide)
    (by decide) (by decide) (by decide) (by decide)

/-! ## Claim C6 -/

/-- Claim C6: percentage canonicalization maps a value in [0, 1] to 100 times
itself, leaves values greater than 1 unchanged, and is idempotent on values
greater than 1. -/
theorem c6_pct :
    (∀ q : ℚ, 0 ≤ q → q ≤ 1 → pct (.val q) = .val (q * 100)) ∧
    (∀ q : ℚ, 1 < q → pct (.val q) = .val q) ∧
    (∀ q : ℚ, 1 < q → pct (pct (.val q)) = pct (.val q)) := by
  have h2 : ∀ q : ℚ, 1 < q → pct (.val q) = .val q := by
    intro q h
    simp [pct, not_le.mpr h]
  refine ⟨?_, h2, ?_⟩
  · intro q _ h1
    simp [pct, h1]
  · intro q h
    rw [h2 q h]
    exact h2 q h

/-- Witness for C6 at v = 1/2 and v = 2. -/
theorem c6_witness :
    pct (.val (1/2)) = .val ((1/2) * 100) ∧
    pct (.val 2) = .val 2 ∧
    pct (pct (.val 2)) = pct (.val 2) :=
  ⟨c6_pct.1 (1/2) (by norm_num) (by norm_num),
   c6_pct.2.1 2 (by norm_num),
   c6_pct.2.2 2 (by norm_num)⟩

/-! ## Claim C7 -/

/-- Claim C7: with exact arithmetic, both weighted career averages are
invariant under permuting the season rows. -/
theorem c7_perm_invariant :
    (∀ (t t' : Table) (num den : String), t.cols = t'.cols →
        t.rows.Perm t'.rows → wavg t num den = wavg t' num den) ∧
    (∀ (cols : List String) (sub sub' : List Row) (col : String),
        sub.Perm sub' → cpWavg cols sub col = cpWavg cols sub' col) := by
  constructor
  · intro t t' num den hcols hperm
    have hsub : (wavgSub t num den).Perm (wavgSub t' num den) := by
      rw [wavgSub, wavgSub]
      exact hperm.filter _
    have hnum : wavgNumSum t num den = wavgNumSum t' num den :=
      (hsub.map _).sum_eq
    have hden : wavgDenSum t num den = wavgDenSum t' num den :=
      (hsub.map _).sum_eq
    rw [wavg, wavg, ← hcols]
    by_cases hc : num ∈ t.cols ∧ den ∈ t.cols
    · rw [if_pos hc, if_pos hc]
      by_cases he : wavgSub t num den = []
      · rw [if_pos he, if_pos ((he ▸ hsub).symm.eq_nil)]
      · rw [if_neg he, if_neg (fun h => he ((h ▸ hsub).eq_nil)), hnum, hden]
    · rw [if_neg hc, if_neg hc]
  · intro cols sub sub' col hperm
    have hg : cpGsum sub = cpGsum sub' := (hperm.filterMap _).sum_eq
    rw [cpWavg, cpWavg, ← hg]
    by_cases h : col ∉ cols ∨ cpGsum sub = 0
    · rw [if_pos h, if_pos h]
    · rw [if_neg h, if_neg h, hg, (hperm.filterMap _).sum_eq]

def c7Row1 : Row := [("x", .num 3), ("g", .num 2)]

def c7Row2 : Row := [("x", .num 5), ("g", .num 4)]

/-- Witness for C7 on a concrete two-row swap. -/
theorem c7_witness :
    wavg ⟨["x", "g"], [c7Row1, c7Row2]⟩ "x" "g" =
      wavg ⟨["x", "g"], [c7Row2, c7Row1]⟩ "x" "g" ∧
    cpWavg ["x", "g"] [c7Row1, c7Row2] "x" =
      cpWavg ["x", "g"] [c7Row2, c7Row1] "x" :=
  ⟨c7_perm_invariant.1 ⟨["x", "g"], [c7Row1, c7Row2]⟩
      ⟨["x", "g"], [c7Row2, c7Row1]⟩ "x" "g" rfl (List.Perm.swap c7Row2 c7Row1 []),
   c7_perm_invariant.2 ["x", "g"] [c7Row1, c7Row2] [c7Row2, c7Row1] "x"
      (List.Perm.swap c7Row2 c7Row1 [])⟩

/-! ## Claim C8 -/

/-- Claim C8: the resolver returns the query name with score 0 on an empty
candidate set; on a non-empty set it returns a candidate of maximal score,
whose score is in [0, 100] whenever the scorer is (as the weighted ratio is);
it is a total function, so no input raises. -/
theorem c8_best_match (score : String → String → ℚ) (name : String) :
    best_match score name [] = (name, 0) ∧
    ∀ choices : List String, choices ≠ [] →
      ((best_match score name choices).1 ∈ choices ∧
        (best_match score name choices).2 =
          score name (best_match score name choices).1 ∧
        (∀ c ∈ choices, score name c ≤ (best_match score name choices).2)) ∧
      ((∀ c, 0 ≤ score name c ∧ score name c ≤ 100) →
        0 ≤ (best_match score name choices).2 ∧
          (best_match score name choices).2 ≤ 100) := by
  constructor
  · rw [best_match, if_pos rfl]
  · intro choices h
    obtain ⟨hmem, hs, hmax⟩ := best_match_spec score name choices h
    refine ⟨⟨hmem, hs, hmax⟩, ?_⟩
    intro hrange
    constructor
    · rw [hs]; exact (hrange _).1
    · rw [hs]; exact (hrange _).2

/-- Witness for C8 with a constant scorer on an empty and a two-element
candidate set. -/
theorem c8_witness :
    best_match (fun _ _ => 50) "Q" [] = ("Q", 0) ∧
    (best_match (fun _ _ => 50) "Q" ["A", "B"]).1 ∈ ["A", "B"] ∧
    0 ≤ (best_match (fun _ _ => 50) "Q" ["A", "B"]).2 ∧
    (best_match (fun _ _ => 50) "Q" ["A", "B"]).2 ≤ 100 := by
  have h := c8_best_match (fun _ _ => 50) "Q"
  have h2 := h.2 ["A", "B"] (by simp)
  exact ⟨h.1, h2.1.1, (h2.2 (fun _ => by norm_num)).1,
    (h2.2 (fun _ => by norm_num)).2⟩

/-! ## Claim C9 -/

/-- Claim C9: when the resolved name has zero matching rows in the per-game,
totals and career tables alike, `player_summary` returns the structured
not-found result; the embedding is a total function, so no input raises. -/
theorem c9_not_found (pg totals career allstar : Table)
    (score : String → String → ℚ) (player : String)
    (hp : filteredBy pg.rows (psBest pg score player).1 = [])
    (ht : filteredBy totals.rows (psBest pg score player).1 = [])
    (hc : filteredBy career.rows (psBest pg score player).1 = []) :
    player_summary pg totals career allstar score player = .notFound player := by
  simp [player_summary, hp, ht, hc]

/-- Witness for C9: a query against empty tables is reported not found. -/
theorem c9_witness :
    player_summary ⟨[], []⟩ ⟨[], []⟩ ⟨[], []⟩ ⟨[], []⟩ (fun _ _ => 0) "X" =
      .notFound "X" :=
  c9_not_found ⟨[], []⟩ ⟨[], []⟩ ⟨[], []⟩ ⟨[], []⟩ (fun _ _ => 0) "X" rfl rfl rfl

/-! ## Claim C10 -/

/-- Claim C10: whenever the season-filtered team-summaries frame has a row
with a (string) team name present, `team_summary` returns a found summary —
the not-found branch is unreachable, because the fuzzy best match is drawn
from the season's own candidate set and the exact-equality lookup therefore
succeeds. -/
theorem c10_team_found (tbl : Table) (score : String → String → ℚ)
    (season : ℚ) (team : String)
    (h : ∃ r ∈ tbl.rows.filter (fun r => getCell r "season" == Cell.num season),
      ((getCell r "team").toStr).isSome = true) :
    ∃ b s sm, team_summary tbl score season team = .found b s season sm := by
  obtain ⟨r, hr, hsome⟩ := h
  have hdf : tbl.rows.filter (fun r => getCell r "season" == Cell.num season) ≠ [] :=
    List.ne_nil_of_mem hr
  obtain ⟨x, hx⟩ := Option.isSome_iff_exists.mp hsome
  have hxmem : x ∈ (tbl.rows.filter
      (fun r => getCell r "season" == Cell.num season)).filterMap
      (fun r => (getCell r "team").toStr) :=
    List.mem_filterMap.mpr ⟨r, hr, hx⟩
  have hch : pySortedSet ((tbl.rows.filter
      (fun r => getCell r "season" == Cell.num season)).filterMap
      (fun r => (getCell r "team").toStr)) ≠ [] :=
    List.ne_nil_of_mem (mem_pySortedSet.mpr hxmem)
  obtain ⟨hbmem, -, -⟩ := best_match_spec score team _ hch
  obtain ⟨r', hr', hbr'⟩ := List.mem_filterMap.mp (mem_pySortedSet.mp hbmem)
  have hcell : getCell r' "team" = Cell.str (best_match score team
      (pySortedSet ((tbl.rows.filter
        (fun r => getCell r "season" == Cell.num season)).filterMap
        (fun r => (getCell r "team").toStr)))).1 := by
    rcases hc2 : getCell r' "team" with _ | a | q
    · rw [hc2] at hbr'; simp [Cell.toStr] at hbr'
    · rw [hc2] at hbr'
      rw [Option.some.inj hbr']
    · rw [hc2] at hbr'; simp [Cell.toStr] at hbr'
  have hne : (tbl.rows.filter
      (fun r => getCell r "season" == Cell.num season)).filter
      (fun r => getCell r "team" == Cell.str (best_match score team
        (pySortedSet ((tbl.rows.filter
          (fun r => getCell r "season" == Cell.num season)).filterMap
          (fun r => (getCell r "team").toStr)))).1) ≠ [] :=
    List.ne_nil_of_mem (List.mem_filter.mpr ⟨hr', by simp [hcell]⟩)
  rw [team_summary]
  simp only []
  rw [if_neg hdf]
  cases hhd : ((tbl.rows.filter
      (fun r => getCell r "season" == Cell.num season)).filter
      (fun r => getCell r "team" == Cell.str (best_match score team
        (pySortedSet ((tbl.rows.filter
          (fun r => getCell r "season" == Cell.num season)).filterMap
          (fun r => (getCell r "team").toStr)))).1)).head? with
  | none =>
    exact absurd (List.head?_eq_none_iff.mp hhd) hne
  | some r0 =>
    exact ⟨_, _, _, rfl⟩

/-! ## Claims C2 and C3 -/

/-- The ranking metric of one output record of `top_scorers`. -/
def tsRecKey (p : Cell × Cell × Cell × Cell) : ℚ := (p.2.2.1.toQ).getD 0

theorem filter_orderedInsert_keyEq (c : ℚ) (x : Row)
    (hx : getCell x "pts_per_game" = Cell.num c) :
    ∀ l : List Row,
      (List.orderedInsert rle x l).filter
          (fun r => getCell r "pts_per_game" == Cell.num c) =
        x :: l.filter (fun r => getCell r "pts_per_game" == Cell.num c) := by
  have hpx : (getCell x "pts_per_game" == Cell.num c) = true := by
    exact beq_iff_eq.mpr hx
  intro l
  induction l with
  | nil => simp [List.orderedInsert, hpx]
  | cons y ys ih =>
    rw [List.orderedInsert]
    by_cases hr : rle x y
    · rw [if_pos hr]
      simp only [List.filter_cons, hpx, if_true]
    · rw [if_neg hr]
      have hkey : tsKey x = c := by
        rw [tsKey, cellQ, hx]
        rfl
      have hylt : tsKey y < tsKey x := lt_of_not_le hr
      have hpy : (getCell y "pts_per_game" == Cell.num c) = false := by
        refine beq_eq_false_iff_ne.mpr ?_
        intro hyc
        have hyk : tsKey y = c := by
          rw [tsKey, cellQ, hyc]
          rfl
        rw [hkey] at hylt
        exact absurd hyk (ne_of_lt hylt)
      simp only [List.filter_cons, hpy, Bool.false_eq_true, if_false, ih]

theorem filter_orderedInsert_keyNe (c : ℚ) (x : Row)
    (hx : getCell x "pts_per_game" ≠ Cell.num c) :
    ∀ l : List Row,
      (List.orderedInsert rle x l).filter
          (fun r => getCell r "pts_per_game" == Cell.num c) =
        l.filter (fun r => getCell r "pts_per_game" == Cell.num c) := by
  have hpx : (getCell x "pts_per_game" == Cell.num c) = false :=
    beq_eq_false_iff_ne.mpr hx
  intro l
  induction l with
  | nil => simp [List.orderedInsert, hpx]
  | cons y ys ih =>
    rw [List.orderedInsert]
    by_cases hr : rle x y
    · rw [if_pos hr]
      simp only [List.filter_cons, hpx, Bool.false_eq_true, if_false]
    · rw [if_neg hr]
      simp only [List.filter_cons, ih]

/-- Stability of the modelled ascending sort: filtering the sorted list to the
rows with a given metric value yields those rows in load order. -/
theorem filter_insertionSort_key (c : ℚ) :
    ∀ l : List Row,
      (List.insertionSort rle l).filter
          (fun r => getCell r "pts_per_game" == Cell.num c) =
        l.filter (fun r => getCell r "pts_per_game" == Cell.num c) := by
  intro l
  induction l with
  | nil => rfl
  | cons a l ih =>
    rw [List.insertionSort]
    by_cases ha : getCell a "pts_per_game" = Cell.num c
    · rw [filter_orderedInsert_keyEq c a ha, ih]
      simp only [List.filter_cons, beq_iff_eq.mpr ha, if_true]
    · rw [filter_orderedInsert_keyNe c a ha, ih]
      simp only [List.filter_cons, beq_eq_false_iff_ne.mpr ha,
        Bool.false_eq_true, if_false]

def c2Table : Table :=
  ⟨["player", "team", "season", "pts_per_game", "g"],
   [[("player", .str "A"), ("team", .str "T"), ("season", .num 2000),
     ("pts_per_game", .num 10), ("g", .num 5)],
    [("player", .str "B"), ("team", .str "T"), ("season", .num 2000),
     ("pts_per_game", .num 8), ("g", .num 6)]]⟩

/-- Claim C2 counterexample: on a season with two valid rows, `n = 0` yields
the empty sequence although rows satisfy the season filter and the metric
column exists — so "length 0 exactly when no rows satisfy the season filter"
is false; moreover the claimed coercion of a negative `n` to 0 does not
happen: `head(-1)` keeps one row. -/
theorem c2_counterexample :
    top_scorers c2Table 2000 0 = [] ∧
    tsDf c2Table 2000 ≠ [] ∧
    "pts_per_game" ∈ c2Table.cols ∧
    (top_scorers c2Table 2000 (-1)).length = 1 := by decide

/-- Claim C2 (amended): for `n ≥ 0`, `top_scorers` returns at most `n`
records, non-increasing in the ranking metric, and the result is empty exactly
when the season filter is empty, the metric column is absent, every season row
has a missing projected column, or `n = 0`. -/
theorem c2_amended (t : Table) (season : ℚ) (n : ℤ) (hn : 0 ≤ n) :
    (top_scorers t season n).length ≤ n.toNat ∧
    (top_scorers t season n).Pairwise (fun a b => tsRecKey b ≤ tsRecKey a) ∧
    (top_scorers t season n = [] ↔
      tsDf t season = [] ∨ "pts_per_game" ∉ t.cols ∨ tsOut t season = [] ∨
        n = 0) := by
  by_cases hbr : tsDf t season = [] ∨ "pts_per_game" ∉ t.cols
  · rw [top_scorers, if_pos hbr]
    refine ⟨Nat.zero_le _, List.Pairwise.nil, ?_⟩
    simp only [true_iff]
    rcases hbr with h | h
    · exact Or.inl h
    · exact Or.inr (Or.inl h)
  · rw [top_scorers, if_neg hbr]
    push_neg at hbr
    have hsorted : List.Sorted rle (List.insertionSort rle (tsOut t season)) :=
      List.sorted_insertionSort rle (tsOut t season)
    have hhead : pyHead n (pandasSortDesc (tsOut t season)) =
        (pandasSortDesc (tsOut t season)).take n.toNat := by
      rw [pyHead, if_pos hn]
    constructor
    · rw [hhead, List.length_map]
      exact List.length_take_le _ _
    constructor
    · rw [hhead]
      rw [List.pairwise_map]
      refine List.Pairwise.sublist (List.take_sublist _ _) ?_
      rw [pandasSortDesc, List.pairwise_reverse]
      exact hsorted
    · rw [hhead]
      have hlen : (pandasSortDesc (tsOut t season)).length =
          (tsOut t season).length := by
        rw [pandasSortDesc, List.length_reverse, List.length_insertionSort]
      constructor
      · intro hempty
        rw [List.map_eq_nil_iff] at hempty
        rcases List.take_eq_nil_iff.mp hempty with h | h
        · right; right; right
          rw [Int.toNat_eq_zero] at h
          exact le_antisymm h hn
        · right; right; left
          have : (tsOut t season).length = 0 := by
            rw [← hlen, h, List.length_nil]
          exact List.length_eq_zero.mp this
      · intro h
        rcases h with h | h | h | h
        · exact absurd h hbr.1
        · exact absurd hbr.2 h
        · rw [List.map_eq_nil_iff, List.take_eq_nil_iff]
          right
          rw [← List.length_eq_zero, hlen, h, List.length_nil]
        · rw [List.map_eq_nil_iff, List.take_eq_nil_iff]
          left
          rw [h]
          rfl

/-- Witness for the amended C2 theorem on a concrete table and `n = 3`. -/
theorem c2_witness :
    (top_scorers c2Table 2000 3).length ≤ (3 : ℤ).toNat ∧
    (top_scorers c2Table 2000 3).Pairwise
      (fun a b => tsRecKey b ≤ tsRecKey a) ∧
    (top_scorers c2Table 2000 3 = [] ↔
      tsDf c2Table 2000 = [] ∨ "pts_per_game" ∉ c2Table.cols ∨
        tsOut c2Table 2000 = [] ∨ (3 : ℤ) = 0) :=
  c2_amended c2Table 2000 3 (by norm_num)

def c3RowA : Row :=
  [("player", .str "A"), ("team", .str "T"), ("season", .num 2000),
   ("pts_per_game", .num 10), ("g", .num 5)]

def c3RowB : Row :=
  [("player", .str "B"), ("team", .str "T"), ("season", .num 2000),
   ("pts_per_game", .num 10), ("g", .num 6)]

def c3Table : Table :=
  ⟨["player", "team", "season", "pts_per_game", "g"], [c3RowA, c3RowB]⟩

/-- Claim C3 counterexample: two rows with the same points per game appear in
the output of `top_scorers` in the reverse of their load order (pandas sorts
ascending stably and then reverses the order), so the claimed stable
tie-break by original row order is false. -/
theorem c3_counterexample :
    getCell c3RowA "pts_per_game" = getCell c3RowB "pts_per_game" ∧
    c3Table.rows = [c3RowA, c3RowB] ∧
    top_scorers c3Table 2000 10 = [tsProj c3RowB, tsProj c3RowA] := by decide

/-- Claim C3 (amended): rows of equal ranking metric appear in the output of
`top_scorers` in the reverse of the table's load order: when `n` is large
enough to keep every row, the output records with metric `c` are exactly the
season-filtered dropna rows with metric `c`, reversed. -/
theorem c3_amended (t : Table) (season : ℚ) (n : ℤ) (c : ℚ)
    (hpts : "pts_per_game" ∈ t.cols)
    (hn : (tsOut t season).length ≤ n.toNat) :
    (top_scorers t season n).filter (fun p => p.2.2.1 == Cell.num c) =
      ((tsOut t season).filter
        (fun r => getCell r "pts_per_game" == Cell.num c)).reverse.map tsProj := by
  by_cases hdf : tsDf t season = []
  · rw [top_scorers, if_pos (Or.inl hdf)]
    have hout : tsOut t season = [] := by
      rw [tsOut, hdf]
      rfl
    rw [hout]
    rfl
  · rw [top_scorers, if_neg (by
      push_neg
      exact ⟨hdf, hpts⟩)]
    have hlen : (pandasSortDesc (tsOut t season)).length =
        (tsOut t season).length := by
      rw [pandasSortDesc, List.length_reverse, List.length_insertionSort]
    have hhead : pyHead n (pandasSortDesc (tsOut t season)) =
        pandasSortDesc (tsOut t season) := by
      rw [pyHead]
      by_cases hn0 : 0 ≤ n
      · rw [if_pos hn0]
        exact List.take_of_length_le (hlen ▸ hn)
      · rw [if_neg hn0]
        have h0 : n.toNat = 0 := Int.toNat_eq_zero.mpr (le_of_not_le hn0)
        rw [h0, Nat.le_zero] at hn
        have hnil : pandasSortDesc (tsOut t season) = [] := by
          rw [← List.length_eq_zero, hlen]
          exact hn
        rw [hnil]
        simp
    rw [hhead, List.filter_map, pandasSortDesc, List.filter_reverse]
    have hfun : ((fun p : Cell × Cell × Cell × Cell =>
        p.2.2.1 == Cell.num c) ∘ tsProj) =
        (fun r => getCell r "pts_per_game" == Cell.num c) := rfl
    rw [hfun, filter_insertionSort_key]

/-- Witness for the amended C3 theorem on the two tied rows. -/
theorem c3_witness :
    top_scorers c3Table 2000 10 = [tsProj c3RowB, tsProj c3RowA] ∧
    (top_scorers c3Table 2000 10).filter (fun p => p.2.2.1 == Cell.num 10) =
      ((tsOut c3Table 2000).filter
        (fun r => getCell r "pts_per_game" == Cell.num 10)).reverse.map
        tsProj :=
  ⟨by decide, c3_amended c3Table 2000 10 10 (by decide) (by decide)⟩

/-! ## Claim C4 -/

/-- Per-game table of a player whose per-game career averages are all 0 over
10 games. -/
def c4pg : Table :=
  ⟨["player", "team", "season", "pts_per_game", "ast_per_game", "trb_per_game",
    "g"],
   [[("player", .str "A"), ("team", .str "T"), ("season", .num 2000),
     ("pts_per_game", .num 0), ("ast_per_game", .num 0),
     ("trb_per_game", .num 0), ("g", .num 10)]]⟩

/-- Totals table of the same player with nonzero totals-based averages. -/
def c4tot : Table :=
  ⟨["player", "pts", "ast", "trb", "g"],
   [[("player", .str "A"), ("pts", .num 7), ("ast", .num 3), ("trb", .num 4),
     ("g", .num 10)]]⟩

/-- Claim C4 counterexample: the per-game table has the `pts_per_game` column
and a defined weighted average of 0, yet `player_summary` reports the
totals-table values 7/3/4 — Python `or` treats the defined average 0.0 as
falsy and falls back to the totals table. -/
theorem c4_counterexample :
    "pts_per_game" ∈ c4pg.cols ∧
    wavg ⟨c4pg.cols, filteredBy c4pg.rows "A"⟩ "pts_per_game" "g" =
      some (PyFloat.val 0) ∧
    player_summary c4pg c4tot ⟨[], []⟩ ⟨[], []⟩ (fun _ _ => 100) "A" =
      .found "A" 100 (some 2000, some 2000) ["T"] (some (.val 7))
        (some (.val 3)) (some (.val 4)) 0 := by decide

/-- Claim C4 (amended): in `player_summary` the career-average fields are
`psCareerAvg`, and the totals-table weighted average is used exactly when the
per-game weighted average is Python-falsy — missing (column absent or no
usable rows) or equal to 0; any other defined per-game average (nonzero, NaN
or ±inf) is the one reported. -/
theorem c4_amended :
    (∀ (pdfT tdfT : Table) (pcol tcol : String),
      (wavg pdfT pcol "g" = none ∨ wavg pdfT pcol "g" = some (PyFloat.val 0) →
        psCareerAvg pdfT tdfT pcol tcol =
          (wavg tdfT tcol "g").map PyFloat.round2) ∧
      (∀ x, wavg pdfT pcol "g" = some x → x ≠ PyFloat.val 0 →
        psCareerAvg pdfT tdfT pcol tcol = some x.round2)) ∧
    (∀ (pg totals career allstar : Table) (score : String → String → ℚ)
        (player : String),
      ¬(filteredBy pg.rows (psBest pg score player).1 = [] ∧
        filteredBy totals.rows (psBest pg score player).1 = [] ∧
        filteredBy career.rows (psBest pg score player).1 = []) →
      player_summary pg totals career allstar score player =
        .found (psBest pg score player).1 (psBest pg score player).2
          ((psSeasons pg (filteredBy pg.rows (psBest pg score player).1)).head?,
            (psSeasons pg (filteredBy pg.rows (psBest pg score player).1)).getLast?)
          (psTeams pg (filteredBy pg.rows (psBest pg score player).1))
          (psCareerAvg ⟨pg.cols, filteredBy pg.rows (psBest pg score player).1⟩
            ⟨totals.cols, filteredBy totals.rows (psBest pg score player).1⟩
            "pts_per_game" "pts")
          (psCareerAvg ⟨pg.cols, filteredBy pg.rows (psBest pg score player).1⟩
            ⟨totals.cols, filteredBy totals.rows (psBest pg score player).1⟩
            "ast_per_game" "ast")
          (psCareerAvg ⟨pg.cols, filteredBy pg.rows (psBest pg score player).1⟩
            ⟨totals.cols, filteredBy totals.rows (psBest pg score player).1⟩
            "trb_per_game" "trb")
          (filteredBy allstar.rows (psBest pg score player).1).length) := by
  constructor
  · intro pdfT tdfT pcol tcol
    constructor
    · intro h
      rcases h with h | h <;> rw [psCareerAvg, h] <;>
        simp [pyOr, PyFloat.truthy]
    · intro x hx hne
      rw [psCareerAvg, hx]
      have htr : x.truthy = true := by
        cases x with
        | val q =>
          have : q ≠ 0 := fun hq => hne (by rw [hq])
          simp [PyFloat.truthy, this]
        | nan => rfl
        | inf => rfl
        | ninf => rfl
      simp [pyOr, htr]
  · intro pg totals career allstar score player h
    rw [player_summary]
    exact if_neg h

/-- Witness for the amended C4 theorem: the zero-average fallback, a nonzero
per-game average kept, and the found-shape of `player_summary` on the
concrete tables. -/
theorem c4_witness :
    psCareerAvg ⟨c4pg.cols, filteredBy c4pg.rows "A"⟩
        ⟨c4tot.cols, filteredBy c4tot.rows "A"⟩ "pts_per_game" "pts" =
      (wavg ⟨c4tot.cols, filteredBy c4tot.rows "A"⟩ "pts" "g").map
        PyFloat.round2 ∧
    psCareerAvg ⟨c4tot.cols, filteredBy c4tot.rows "A"⟩ ⟨c4pg.cols, []⟩
        "pts" "pts" = some ((PyFloat.val 7).round2) ∧
    player_summary c4pg c4tot ⟨[], []⟩ ⟨[], []⟩ (fun _ _ => 100) "A" =
      .found (psBest c4pg (fun _ _ => 100) "A").1
        (psBest c4pg (fun _ _ => 100) "A").2
        ((psSeasons c4pg (filteredBy c4pg.rows
            (psBest c4pg (fun _ _ => 100) "A").1)).head?,
          (psSeasons c4pg (filteredBy c4pg.rows
            (psBest c4pg (fun _ _ => 100) "A").1)).getLast?)
        (psTeams c4pg (filteredBy c4pg.rows
          (psBest c4pg (fun _ _ => 100) "A").1))
        (psCareerAvg ⟨c4pg.cols, filteredBy c4pg.rows
            (psBest c4pg (fun _ _ => 100) "A").1⟩
          ⟨c4tot.cols, filteredBy c4tot.rows
            (psBest c4pg (fun _ _ => 100) "A").1⟩ "pts_per_game" "pts")
        (psCareerAvg ⟨c4pg.cols, filteredBy c4pg.rows
            (psBest c4pg (fun _ _ => 100) "A").1⟩
          ⟨c4tot.cols, filteredBy c4tot.rows
            (psBest c4pg (fun _ _ => 100) "A").1⟩ "ast_per_game" "ast")
        (psCareerAvg ⟨c4pg.cols, filteredBy c4pg.rows
            (psBest c4pg (fun _ _ => 100) "A").1⟩
          ⟨c4tot.cols, filteredBy c4tot.rows
            (psBest c4pg (fun _ _ => 100) "A").1⟩ "trb_per_game" "trb")
        (filteredBy (⟨[], []⟩ : Table).rows
          (psBest c4pg (fun _ _ => 100) "A").1).length :=
  ⟨(c4_amended.1 ⟨c4pg.cols, filteredBy c4pg.rows "A"⟩
      ⟨c4tot.cols, filteredBy c4tot.rows "A"⟩ "pts_per_game" "pts").1
      (Or.inr (by decide)),
   (c4_amended.1 ⟨c4tot.cols, filteredBy c4tot.rows "A"⟩ ⟨c4pg.cols, []⟩
      "pts" "pts").2 (PyFloat.val 7) (by decide) (by decide),
   c4_amended.2 c4pg c4tot ⟨[], []⟩ ⟨[], []⟩ (fun _ _ => 100) "A"
      (by decide)⟩

def c10Table : Table :=
  ⟨["season", "team", "w"],
   [[("season", .num 2000), ("team", .str "Lakers"), ("w", .num 67)]]⟩

/-- Witness for C10 on a one-row team-summaries table. -/
theorem c10_witness :
    ∃ b s sm, team_summary c10Table (fun _ _ => 80) 2000 "LAL" =
      .found b s 2000 sm :=
  c10_team_found c10Table (fun _ _ => 80) 2000 "LAL"
    ⟨[("season", .num 2000), ("team", .str "Lakers"), ("w", .num 67)],
     by decide, by decide⟩

end DunkMaster
